import Mathlib

/-!
Shallow embedding of the QKD-backed OpenSSL RNG engine
(`src/engine/qkd/template_engine.c`).

The engine keeps four pieces of process-wide state: the configured service
URL (`qkd_service_url`), the opaque session handle returned by the remote
service (`qkd_key_handle`), and the most recently fetched key block together
with a read cursor (`qkd_key_buffer`, `qkd_key_buffer_len`,
`qkd_key_buffer_pos`).  We model the buffer as a `List Nat` of bytes, so the
C pair (pointer, length) becomes a single list whose length plays the role
of `qkd_key_buffer_len`.

URLs and handles are opaque C strings whose content is never inspected by
the engine (they are only interpolated into request payloads), so we model
them as opaque `Nat` tokens.

The network is modelled as an environment the engine consumes:
* the open/confirm/close round-trips of `template_engine_connect` are the
  fields of `ConnectEnv` (response received?, parsed handle field, ...);
* the per-request outcomes of `perform_post` inside
  `template_engine_fetch_key` form a queue `List (Option (List Nat))`:
  `none` is a transport/parse failure, `some bs` a response whose
  `key_buffer` field Base64-decoded to the byte list `bs`.

Every outgoing HTTP POST the engine performs is recorded in a `Request`
trace, so that properties about *which* requests are issued (endpoint
capture, cleanup close, connect-on-demand) are statable.
-/

/-- One HTTP POST issued by the engine, tagged with the endpoint path the C
code appends to the service URL and the data interpolated into the payload. -/
inductive Request where
  /-- POST `url ++ "/qkd_open"` with payload `{}`. -/
  | openReq (url : Nat)
  /-- POST `url ++ "/qkd_connect_blocking"` carrying `handle`. -/
  | connectReq (url : Nat) (handle : Nat)
  /-- POST `url ++ "/qkd_get_key"` carrying `handle`. -/
  | fetchReq (url : Nat) (handle : Nat)
  /-- POST `url ++ "/qkd_close"` carrying `handle`. -/
  | closeReq (url : Nat) (handle : Nat)
deriving DecidableEq

/-- The engine's global mutable state: `qkd_service_url`, `qkd_key_handle`,
`qkd_key_buffer` (+ its length) and `qkd_key_buffer_pos`. -/
structure EngineState where
  url : Option Nat
  handle : Option Nat
  buffer : List Nat
  pos : Nat
deriving DecidableEq

/-- Key bytes still unread in the buffer: `qkd_key_buffer_len - qkd_key_buffer_pos`. -/
def remaining (s : EngineState) : Nat :=
  s.buffer.length - s.pos

/-- Network outcomes of the two round-trips performed by
`template_engine_connect` (plus the best-effort cleanup close).
`openOk` is whether the `/qkd_open` POST returned a body with HTTP 200;
`openHandle` is the parsed `key_handle` field, when present;
`connectOk` is whether `/qkd_connect_blocking` returned HTTP 200;
`closeOk` is the outcome of the cleanup `/qkd_close` (the C code frees this
response without looking at it). -/
structure ConnectEnv where
  openOk : Bool
  openHandle : Option Nat
  connectOk : Bool
  closeOk : Bool
deriving DecidableEq

/-- Result of `template_engine_connect`: the C `int` return (0 success,
-1 error), the state of the globals afterwards, and the requests issued. -/
structure ConnectResult where
  ret : Int
  state : EngineState
  reqs : List Request
deriving DecidableEq

/-- `template_engine_connect` (template_engine.c:147-180).  Step 1 POSTs
`/qkd_open` and parses `key_handle` into the global handle (the parse
overwrites the global only when the field is present, else the global is
left as is); it fails if no response arrived or the global is still NULL.
Step 2 POSTs `/qkd_connect_blocking`; on failure the code jumps to
`connect_err`, which best-effort POSTs `/qkd_close` with the just-received
handle (ignoring the close outcome), frees the handle and returns -1. -/
def template_engine_connect (env : ConnectEnv) (s : EngineState) : ConnectResult :=
  match s.url with
  | none => { ret := -1, state := s, reqs := [] }
  | some u =>
    let h1 : Option Nat :=
      if env.openOk then
        match env.openHandle with
        | some h => some h
        | none => s.handle
      else s.handle
    match env.openOk, h1 with
    | true, some h =>
      if env.connectOk then
        { ret := 0, state := { s with handle := some h },
          reqs := [Request.openReq u, Request.connectReq u h] }
      else
        { ret := -1, state := { s with handle := none },
          reqs := [Request.openReq u, Request.connectReq u h, Request.closeReq u h] }
    | _, _ => { ret := -1, state := { s with handle := h1 }, reqs := [Request.openReq u] }

/-- Result of `template_engine_fetch_key`: the C `int` return, the state of
the globals afterwards, the requests issued, and the part of the response
queue not yet consumed. -/
structure FetchResult where
  ret : Int
  state : EngineState
  reqs : List Request
  fetchesLeft : List (Option (List Nat))
deriving DecidableEq

/-- `template_engine_fetch_key` (template_engine.c:183-199).  Bails out with
-1 if no URL or no handle is set (issuing no request).  Otherwise it first
frees the old buffer (len := 0, pos := 0), then POSTs `/qkd_get_key`,
consuming the next queued response; it fails if the response is missing, the
`key_buffer` field did not parse/decode, or the decoded block is empty, and
on success installs the block with the cursor reset to 0.  An exhausted
response queue is a transport failure for every further request. -/
def template_engine_fetch_key (fetches : List (Option (List Nat)))
    (s : EngineState) : FetchResult :=
  match s.url, s.handle with
  | some u, some h =>
    match fetches with
    | [] =>
      { ret := -1, state := { s with buffer := [], pos := 0 },
        reqs := [Request.fetchReq u h], fetchesLeft := [] }
    | resp :: rest =>
      match resp with
      | none =>
        { ret := -1, state := { s with buffer := [], pos := 0 },
          reqs := [Request.fetchReq u h], fetchesLeft := rest }
      | some bs =>
        if bs.length = 0 then
          { ret := -1, state := { s with buffer := [], pos := 0 },
            reqs := [Request.fetchReq u h], fetchesLeft := rest }
        else
          { ret := 0, state := { s with buffer := bs, pos := 0 },
            reqs := [Request.fetchReq u h], fetchesLeft := rest }
  | _, _ => { ret := -1, state := s, reqs := [], fetchesLeft := fetches }

/-- The in-buffer copy step of `template_rand_bytes`
(template_engine.c:243-248): `bytes_to_copy` is the rest of the buffer,
capped at the bytes still needed; the copied slice starts at the cursor and
the cursor advances by the amount copied. -/
def buffer_take (k : Nat) (s : EngineState) : List Nat × EngineState :=
  ((s.buffer.drop s.pos).take (min (s.buffer.length - s.pos) k),
   { s with pos := s.pos + min (s.buffer.length - s.pos) k })

/-- Result of `template_rand_bytes`: the C `int` return as a `Bool`
(`true` = 1 success, `false` = 0 failure), the bytes written into the
caller's output buffer, the final global state, the requests issued, and
the unconsumed fetch responses. -/
structure ProvideResult where
  ret : Bool
  written : List Nat
  state : EngineState
  reqs : List Request
  fetchesLeft : List (Option (List Nat))
deriving DecidableEq

/-- The `while (bytes_provided < num)` loop of `template_rand_bytes`
(template_engine.c:235-249), with `needed = num - bytes_provided` and `acc`
the bytes written so far.  When the buffer is exhausted it fetches a fresh
block, returning `bytes_provided > 0` as the call's result if the fetch
fails (or reports a zero-length block); otherwise it copies
`min(remaining, needed)` bytes out of the buffer.  `fuel` dominates the
number of iterations; every caller passes more fuel than
`fetches.length + needed`, which bounds the iteration count, so the
fuel-exhaustion branch is unreachable there. -/
def provideLoop (fuel : Nat) (fetches : List (Option (List Nat)))
    (s : EngineState) (needed : Nat) (acc : List Nat) (reqs : List Request) :
    ProvideResult :=
  match fuel with
  | 0 => { ret := false, written := acc, state := s, reqs := reqs, fetchesLeft := fetches }
  | fuel1 + 1 =>
    if needed = 0 then
      { ret := true, written := acc, state := s, reqs := reqs, fetchesLeft := fetches }
    else if s.buffer.length ≤ s.pos then
      if (template_engine_fetch_key fetches s).ret = 0 then
        if (template_engine_fetch_key fetches s).state.buffer.length = 0 then
          { ret := !acc.isEmpty, written := acc,
            state := (template_engine_fetch_key fetches s).state,
            reqs := reqs ++ (template_engine_fetch_key fetches s).reqs,
            fetchesLeft := (template_engine_fetch_key fetches s).fetchesLeft }
        else
          provideLoop fuel1 (template_engine_fetch_key fetches s).fetchesLeft
            (template_engine_fetch_key fetches s).state needed acc
            (reqs ++ (template_engine_fetch_key fetches s).reqs)
      else
        { ret := !acc.isEmpty, written := acc,
          state := (template_engine_fetch_key fetches s).state,
          reqs := reqs ++ (template_engine_fetch_key fetches s).reqs,
          fetchesLeft := (template_engine_fetch_key fetches s).fetchesLeft }
    else
      provideLoop fuel1 fetches (buffer_take needed s).2
        (needed - (buffer_take needed s).1.length)
        (acc ++ (buffer_take needed s).1) reqs

/-- The full network environment one `template_rand_bytes` call can consume:
the connect round-trips and the queue of `/qkd_get_key` outcomes. -/
structure RandEnv where
  conn : ConnectEnv
  fetches : List (Option (List Nat))
deriving DecidableEq

/-- `template_rand_bytes` (template_engine.c:226-251).  If no handle is set
it first runs `template_engine_connect`, returning 0 (failure) with nothing
written if that fails; then it runs the provide loop. -/
def template_rand_bytes (env : RandEnv) (s : EngineState) (num : Nat) :
    ProvideResult :=
  match s.handle with
  | none =>
    let c := template_engine_connect env.conn s
    if c.ret = 0 then
      provideLoop (env.fetches.length + num + 1) env.fetches c.state num [] c.reqs
    else
      { ret := false, written := [], state := c.state, reqs := c.reqs,
        fetchesLeft := env.fetches }
  | some _ => provideLoop (env.fetches.length + num + 1) env.fetches s num [] []

/-- `template_engine_ctrl` (template_engine.c:294-305), command 1 =
`QKD_SERVICE_URL`: a NULL pointer is rejected, otherwise the global URL is
replaced by a copy of the argument; unknown commands fail. -/
def template_engine_ctrl (cmd : Nat) (p : Option Nat) (s : EngineState) :
    Bool × EngineState :=
  match cmd, p with
  | 1, some url => (true, { s with url := some url })
  | 1, none => (false, s)
  | _, _ => (false, s)

/-- `template_rand_status` (template_engine.c:268-274): the status is just
whether a service URL is configured. -/
def template_rand_status (s : EngineState) : Bool :=
  s.url.isSome

/-- A fetch response that `template_engine_fetch_key` accepts: a response
arrived and decoded to a non-empty block. -/
def goodResp (r : Option (List Nat)) : Bool :=
  match r with
  | none => false
  | some bs => !bs.isEmpty

/-! ### Helper lemmas about the embedded operations -/

theorem fetch_key_preserves (f : List (Option (List Nat))) (s : EngineState) :
    (template_engine_fetch_key f s).state.url = s.url ∧
    (template_engine_fetch_key f s).state.handle = s.handle := by
  unfold template_engine_fetch_key
  repeat' split
  all_goals simp

theorem buffer_take_preserves (k : Nat) (s : EngineState) :
    (buffer_take k s).2.url = s.url ∧ (buffer_take k s).2.handle = s.handle ∧
    (buffer_take k s).2.buffer = s.buffer := by
  simp [buffer_take]

theorem buffer_take_len (k : Nat) (s : EngineState) :
    (buffer_take k s).1.length = min (s.buffer.length - s.pos) k := by
  simp only [buffer_take, List.length_take, List.length_drop]
  omega

theorem provideLoop_preserves (fuel : Nat) :
    ∀ (f : List (Option (List Nat))) (s : EngineState) (needed : Nat)
      (acc : List Nat) (reqs : List Request),
      (provideLoop fuel f s needed acc reqs).state.url = s.url ∧
      (provideLoop fuel f s needed acc reqs).state.handle = s.handle := by
  induction fuel with
  | zero => intro f s needed acc reqs; simp [provideLoop]
  | succ fuel1 ih =>
    intro f s needed acc reqs
    by_cases h0 : needed = 0
    · simp [provideLoop, h0]
    · by_cases hb : s.buffer.length ≤ s.pos
      · have hp := fetch_key_preserves f s
        by_cases hr : (template_engine_fetch_key f s).ret = 0
        · by_cases hz : (template_engine_fetch_key f s).state.buffer.length = 0
          · simp only [provideLoop, if_neg h0, if_pos hb, if_pos hr, if_pos hz]
            exact hp
          · have hih := ih (template_engine_fetch_key f s).fetchesLeft
              (template_engine_fetch_key f s).state needed acc
              (reqs ++ (template_engine_fetch_key f s).reqs)
            simp only [provideLoop, if_neg h0, if_pos hb, if_pos hr, if_neg hz]
            exact ⟨hih.1.trans hp.1, hih.2.trans hp.2⟩
        · simp only [provideLoop, if_neg h0, if_pos hb, if_neg hr]
          exact hp
      · have hq := buffer_take_preserves needed s
        have hih := ih f (buffer_take needed s).2
          (needed - (buffer_take needed s).1.length)
          (acc ++ (buffer_take needed s).1) reqs
        simp only [provideLoop, if_neg h0, if_neg hb]
        exact ⟨hih.1.trans hq.1, hih.2.trans hq.2.1⟩

theorem provideLoop_written_bounds (fuel : Nat) :
    ∀ (f : List (Option (List Nat))) (s : EngineState) (needed : Nat)
      (acc : List Nat) (reqs : List Request),
      acc.length ≤ (provideLoop fuel f s needed acc reqs).written.length ∧
      (provideLoop fuel f s needed acc reqs).written.length ≤ acc.length + needed ∧
      ((provideLoop fuel f s needed acc reqs).ret = true → 0 < needed →
        0 < (provideLoop fuel f s needed acc reqs).written.length) := by
  induction fuel with
  | zero => intro f s needed acc reqs; simp [provideLoop]
  | succ fuel1 ih =>
    intro f s needed acc reqs
    by_cases h0 : needed = 0
    · simp [provideLoop, h0]
    · by_cases hb : s.buffer.length ≤ s.pos
      · by_cases hr : (template_engine_fetch_key f s).ret = 0
        · by_cases hz : (template_engine_fetch_key f s).state.buffer.length = 0
          · simp only [provideLoop, if_neg h0, if_pos hb, if_pos hr, if_pos hz]
            refine ⟨le_refl _, Nat.le_add_right _ _, ?_⟩
            cases acc <;> simp
          · simp only [provideLoop, if_neg h0, if_pos hb, if_pos hr, if_neg hz]
            exact ih _ _ _ _ _
        · simp only [provideLoop, if_neg h0, if_pos hb, if_neg hr]
          refine ⟨le_refl _, Nat.le_add_right _ _, ?_⟩
          cases acc <;> simp
      · have hih := ih f (buffer_take needed s).2
          (needed - (buffer_take needed s).1.length)
          (acc ++ (buffer_take needed s).1) reqs
        have hc := buffer_take_len needed s
        have hc1 : 0 < (buffer_take needed s).1.length := by
          rw [hc]; omega
        have hc2 : (buffer_take needed s).1.length ≤ needed := by
          rw [hc]; omega
        simp only [provideLoop, if_neg h0, if_neg hb]
        rw [List.length_append] at hih
        refine ⟨?_, ?_, fun _ _ => ?_⟩ <;> omega

theorem provideLoop_acc (fuel : Nat) :
    ∀ (f : List (Option (List Nat))) (s : EngineState) (needed : Nat)
      (acc : List Nat) (reqs : List Request),
      (provideLoop fuel f s needed acc reqs).written
          = acc ++ (provideLoop fuel f s needed [] []).written ∧
      (provideLoop fuel f s needed acc reqs).state
          = (provideLoop fuel f s needed [] []).state ∧
      (provideLoop fuel f s needed acc reqs).fetchesLeft
          = (provideLoop fuel f s needed [] []).fetchesLeft := by
  induction fuel with
  | zero => intro f s needed acc reqs; simp [provideLoop]
  | succ fuel1 ih =>
    intro f s needed acc reqs
    by_cases h0 : needed = 0
    · simp [provideLoop, h0]
    · by_cases hb : s.buffer.length ≤ s.pos
      · by_cases hr : (template_engine_fetch_key f s).ret = 0
        · by_cases hz : (template_engine_fetch_key f s).state.buffer.length = 0
          · simp [provideLoop, h0, hb, hr, hz]
          · simp only [provideLoop, if_neg h0, if_pos hb, if_pos hr, if_neg hz,
              List.nil_append]
            have h1 := ih (template_engine_fetch_key f s).fetchesLeft
              (template_engine_fetch_key f s).state needed acc
              (reqs ++ (template_engine_fetch_key f s).reqs)
            have h2 := ih (template_engine_fetch_key f s).fetchesLeft
              (template_engine_fetch_key f s).state needed []
              (template_engine_fetch_key f s).reqs
            refine ⟨?_, ?_, ?_⟩
            · rw [h1.1, h2.1, List.nil_append]
            · rw [h1.2.1, h2.2.1]
            · rw [h1.2.2, h2.2.2]
        · simp [provideLoop, h0, hb, hr]
      · simp only [provideLoop, if_neg h0, if_neg hb, List.nil_append]
        have h1 := ih f (buffer_take needed s).2
          (needed - (buffer_take needed s).1.length)
          (acc ++ (buffer_take needed s).1) reqs
        have h2 := ih f (buffer_take needed s).2
          (needed - (buffer_take needed s).1.length)
          (buffer_take needed s).1 []
        refine ⟨?_, ?_, ?_⟩
        · rw [h1.1, h2.1, List.append_assoc]
        · rw [h1.2.1, h2.2.1]
        · rw [h1.2.2, h2.2.2]

/-- The total key-byte stream available to the provide loop from a given
buffer state and fetch-response queue: the unread rest of the current
buffer, followed by the decoded contents of the queued responses in order. -/
def streamOf (s : EngineState) (f : List (Option (List Nat))) : List Nat :=
  s.buffer.drop s.pos ++ f.foldr (fun r t => r.getD [] ++ t) []

theorem take_min_append {α : Type} (D F : List α) (n : Nat) :
    D.take (min D.length n) ++ (D.drop (min D.length n) ++ F).take (n - min D.length n)
      = (D ++ F).take n := by
  rcases le_or_lt n D.length with hle | hlt
  · have hm : min D.length n = n := by omega
    rw [hm, Nat.sub_self]
    simp [List.take_append_of_le_length hle]
  · have hm : min D.length n = D.length := by omega
    rw [hm, List.take_length, List.drop_length, List.nil_append,
      List.take_append_eq_append_take, List.take_of_length_le (Nat.le_of_lt hlt)]

theorem drop_min_append {α : Type} (D F : List α) (n : Nat) :
    (D.drop (min D.length n) ++ F).drop (n - min D.length n) = (D ++ F).drop n := by
  rw [List.drop_append_eq_append_drop, List.drop_drop,
    List.drop_append_eq_append_drop]
  have h1 : min D.length n + (n - min D.length n) = n := by omega
  rw [h1]
  congr 1
  rcases le_or_lt n D.length with hle | hlt
  · have hm : min D.length n = n := by omega
    have h2 : n - D.length = 0 := by omega
    rw [hm, h2, Nat.sub_self]
    simp
  · have hm : min D.length n = D.length := by omega
    rw [hm]
    simp [List.length_drop]

theorem provideLoop_stream (fuel : Nat) :
    ∀ (f : List (Option (List Nat))) (s : EngineState) (needed : Nat)
      (u h : Nat), s.url = some u → s.handle = some h →
      (∀ r ∈ f, goodResp r = true) → f.length + needed < fuel →
      (provideLoop fuel f s needed [] []).written = (streamOf s f).take needed ∧
      streamOf (provideLoop fuel f s needed [] []).state
          (provideLoop fuel f s needed [] []).fetchesLeft
        = (streamOf s f).drop needed ∧
      (∀ r ∈ (provideLoop fuel f s needed [] []).fetchesLeft, goodResp r = true) := by
  induction fuel with
  | zero => intro f s needed u h hu hh hg hf; omega
  | succ fuel1 ih =>
    intro f s needed u h hu hh hg hf
    by_cases h0 : needed = 0
    · subst h0
      simp only [provideLoop, if_pos rfl]
      exact ⟨by simp, by simp, hg⟩
    · by_cases hb : s.buffer.length ≤ s.pos
      · have hdrop : s.buffer.drop s.pos = [] := List.drop_eq_nil_of_le hb
        cases f with
        | nil =>
          have hfk : template_engine_fetch_key [] s =
              { ret := -1, state := { s with buffer := [], pos := 0 },
                reqs := [Request.fetchReq u h], fetchesLeft := [] } := by
            simp [template_engine_fetch_key, hu, hh]
          simp only [provideLoop, if_neg h0, if_pos hb, hfk]
          refine ⟨by simp [streamOf, hdrop], by simp [streamOf, hdrop], by simp⟩
        | cons resp rest =>
          have hgr := hg resp (by simp)
          cases resp with
          | none => simp [goodResp] at hgr
          | some bs =>
            have hbs0 : ¬ bs.length = 0 := by
              simp [goodResp] at hgr
              simpa [List.length_eq_zero] using hgr
            have hfk : template_engine_fetch_key (some bs :: rest) s =
                { ret := 0, state := { s with buffer := bs, pos := 0 },
                  reqs := [Request.fetchReq u h], fetchesLeft := rest } := by
              simp [template_engine_fetch_key, hu, hh, hbs0]
            have hacc := provideLoop_acc fuel1 rest { s with buffer := bs, pos := 0 }
              needed [] [Request.fetchReq u h]
            have hih := ih rest { s with buffer := bs, pos := 0 } needed u h
              (by simpa using hu) (by simpa using hh)
              (fun r hr => hg r (List.mem_cons_of_mem _ hr)) (by simp at hf ⊢; omega)
            have hseq : streamOf s (some bs :: rest) =
                streamOf { s with buffer := bs, pos := 0 } rest := by
              simp [streamOf, hdrop]
            simp only [provideLoop, if_neg h0, if_pos hb, hfk, List.nil_append]
            norm_num [hbs0]
            refine ⟨?_, ?_, ?_⟩
            · rw [hacc.1]
              simpa [hseq] using hih.1
            · rw [hacc.2.1, hacc.2.2, hseq]
              exact hih.2.1
            · rw [hacc.2.2]
              exact hih.2.2
      · have hacc := provideLoop_acc fuel1 f (buffer_take needed s).2
          (needed - (buffer_take needed s).1.length) (buffer_take needed s).1 []
        have hpres := buffer_take_preserves needed s
        have hlen := buffer_take_len needed s
        have htpos : 0 < min (s.buffer.length - s.pos) needed := by omega
        have hih := ih f (buffer_take needed s).2
          (needed - (buffer_take needed s).1.length) u h
          (hpres.1.trans hu) (hpres.2.1.trans hh) hg (by rw [hlen]; omega)
        have hstream2 : streamOf (buffer_take needed s).2 f
            = (s.buffer.drop s.pos).drop (min (s.buffer.length - s.pos) needed)
              ++ f.foldr (fun r t => r.getD [] ++ t) [] := by
          simp only [streamOf, buffer_take]
          rw [List.drop_drop]
        have hta := take_min_append (s.buffer.drop s.pos)
          (f.foldr (fun r t => r.getD [] ++ t) []) needed
        have htd := drop_min_append (s.buffer.drop s.pos)
          (f.foldr (fun r t => r.getD [] ++ t) []) needed
        rw [List.length_drop] at hta htd
        simp only [provideLoop, if_neg h0, if_neg hb, List.nil_append]
        refine ⟨?_, ?_, ?_⟩
        · rw [hacc.1, hih.1, hstream2, hlen]
          simpa [streamOf, buffer_take] using hta
        · rw [hacc.2.1, hacc.2.2, hih.2.1, hstream2, hlen]
          simpa [streamOf] using htd
        · rw [hacc.2.2]
          exact hih.2.2

theorem fetch_key_shape (f : List (Option (List Nat))) (s : EngineState) :
    ((template_engine_fetch_key f s).fetchesLeft = f ∧
      (template_engine_fetch_key f s).ret ≠ 0)
    ∨ (∃ r rest, f = r :: rest ∧
        (template_engine_fetch_key f s).fetchesLeft = rest ∧
        ((template_engine_fetch_key f s).ret = 0 → goodResp r = true)) := by
  unfold template_engine_fetch_key
  repeat' split
  · left; simp
  · right; exact ⟨none, _, rfl, by simp, by simp⟩
  · right
    refine ⟨_, _, rfl, by simp, ?_⟩
    simp
  · right
    refine ⟨_, _, rfl, by simp, fun _ => ?_⟩
    simp_all [goodResp, List.isEmpty_iff, List.length_eq_zero]
  · left; simp

theorem provideLoop_stop_bad (fuel : Nat) :
    ∀ (f : List (Option (List Nat))) (s : EngineState) (needed : Nat)
      (acc : List Nat) (reqs : List Request)
      (pre rest : List (Option (List Nat))) (r : Option (List Nat)),
      f = pre ++ r :: rest → goodResp r = false →
      rest.length ≤ (provideLoop fuel f s needed acc reqs).fetchesLeft.length := by
  induction fuel with
  | zero =>
    intro f s needed acc reqs pre rest r hsplit hbad
    subst hsplit
    simp [provideLoop]
    omega
  | succ fuel1 ih =>
    intro f s needed acc reqs pre rest r hsplit hbad
    by_cases h0 : needed = 0
    · simp only [provideLoop, if_pos h0]
      subst hsplit; simp; omega
    · by_cases hb : s.buffer.length ≤ s.pos
      · rcases fetch_key_shape f s with ⟨hfl, hret⟩ | ⟨r1, rest1, hf1, hfl, hgood1⟩
        · simp only [provideLoop, if_neg h0, if_pos hb, if_neg hret, hfl]
          subst hsplit; simp; omega
        · have hlen1 : rest1.length = pre.length + rest.length := by
            have := congrArg List.length (hf1.symm.trans hsplit)
            simp at this
            omega
          by_cases hret : (template_engine_fetch_key f s).ret = 0
          · by_cases hz : (template_engine_fetch_key f s).state.buffer.length = 0
            · simp only [provideLoop, if_neg h0, if_pos hb, if_pos hret, if_pos hz, hfl]
              omega
            · simp only [provideLoop, if_neg h0, if_pos hb, if_pos hret, if_neg hz, hfl]
              cases pre with
              | nil =>
                exfalso
                have : r1 = r := by
                  have h2 := hf1.symm.trans hsplit
                  simp at h2
                  exact h2.1
                rw [this, hbad] at hgood1
                simp at hgood1
                exact hgood1 hret
              | cons p pre1 =>
                have h2 := hf1.symm.trans hsplit
                simp at h2
                exact ih rest1 _ needed acc _ pre1 rest r h2.2 hbad
          · simp only [provideLoop, if_neg h0, if_pos hb, if_neg hret, hfl]
            omega
      · simp only [provideLoop, if_neg h0, if_neg hb]
        exact ih f _ _ _ _ pre rest r hsplit hbad

theorem connect_preserves_url (env : ConnectEnv) (s : EngineState) :
    (template_engine_connect env s).state.url = s.url := by
  rcases env with ⟨ok, oh, cok, clk⟩
  rcases s with ⟨su, sh, buf, pos⟩
  cases su <;> cases ok <;> cases oh <;> cases cok <;> cases sh <;>
    simp [template_engine_connect]

theorem connect_fail_handle (env : ConnectEnv) (s : EngineState)
    (hh : s.handle = none) (hr : (template_engine_connect env s).ret ≠ 0) :
    (template_engine_connect env s).state.handle = none := by
  rcases env with ⟨ok, oh, cok, clk⟩
  rcases s with ⟨su, sh, buf, pos⟩
  simp only at hh
  subst hh
  cases su <;> cases ok <;> cases oh <;> cases cok <;>
    simp_all [template_engine_connect]

theorem connect_success_state (env : ConnectEnv) (s : EngineState)
    (hr : (template_engine_connect env s).ret = 0) :
    ∃ u hh, s.url = some u ∧
      (template_engine_connect env s).state = { s with handle := some hh } := by
  rcases env with ⟨ok, oh, cok, clk⟩
  rcases s with ⟨su, sh, buf, pos⟩
  cases su <;> cases ok <;> cases oh <;> cases cok <;> cases sh <;>
    simp_all [template_engine_connect]

theorem connect_ret_congr (env : ConnectEnv) (s t : EngineState)
    (hu : t.url = s.url) (hh : t.handle = s.handle) :
    (template_engine_connect env t).ret = (template_engine_connect env s).ret := by
  rcases env with ⟨ok, oh, cok, clk⟩
  rcases s with ⟨su, sh, buf, pos⟩
  rcases t with ⟨tu, th, tbuf, tpos⟩
  simp only at hu hh
  subst hu
  subst hh
  cases tu <;> cases ok <;> cases oh <;> cases cok <;> cases th <;>
    simp [template_engine_connect]

theorem provideLoop_needed_zero (fuel : Nat) (f : List (Option (List Nat)))
    (s : EngineState) (acc : List Nat) (reqs : List Request) (hf : fuel ≠ 0) :
    provideLoop fuel f s 0 acc reqs =
      { ret := true, written := acc, state := s, reqs := reqs, fetchesLeft := f } := by
  cases fuel with
  | zero => exact absurd rfl hf
  | succ n => simp [provideLoop]

theorem fetch_key_reqs (f : List (Option (List Nat))) (s : EngineState)
    (u h : Nat) (hu : s.url = some u) (hh : s.handle = some h) :
    (template_engine_fetch_key f s).reqs = [Request.fetchReq u h] := by
  cases f with
  | nil => simp [template_engine_fetch_key, hu, hh]
  | cons resp rest =>
    cases resp with
    | none => simp [template_engine_fetch_key, hu, hh]
    | some bs =>
      by_cases hb : bs.length = 0 <;> simp [template_engine_fetch_key, hu, hh, hb]

theorem rand_bytes_written_le (env : RandEnv) (s : EngineState) (num : Nat) :
    (template_rand_bytes env s num).written.length ≤ num := by
  unfold template_rand_bytes
  cases hsh : s.handle with
  | none =>
    by_cases hc : (template_engine_connect env.conn s).ret = 0
    · have hb := provideLoop_written_bounds (env.fetches.length + num + 1)
        env.fetches (template_engine_connect env.conn s).state num []
        (template_engine_connect env.conn s).reqs
      simp only [hc, if_true]
      simpa using hb.2.1
    · simp [hc]
  | some h0 =>
    have hb := provideLoop_written_bounds (env.fetches.length + num + 1)
      env.fetches s num [] []
    simpa using hb.2.1

theorem rand_bytes_none_eq (env : RandEnv) (s : EngineState) (num : Nat)
    (hh : s.handle = none) :
    template_rand_bytes env s num =
      if (template_engine_connect env.conn s).ret = 0 then
        provideLoop (env.fetches.length + num + 1) env.fetches
          (template_engine_connect env.conn s).state num []
          (template_engine_connect env.conn s).reqs
      else
        { ret := false, written := [], state := (template_engine_connect env.conn s).state,
          reqs := (template_engine_connect env.conn s).reqs, fetchesLeft := env.fetches } := by
  unfold template_rand_bytes
  rw [hh]

theorem rand_bytes_some_eq (env : RandEnv) (s : EngineState) (num h0 : Nat)
    (hh : s.handle = some h0) :
    template_rand_bytes env s num =
      provideLoop (env.fetches.length + num + 1) env.fetches s num [] [] := by
  unfold template_rand_bytes
  rw [hh]

/-! ### Claim theorems -/

/-- C7: `take(k)` on the key buffer returns exactly `min(k, remaining())`
bytes starting at the current position and advances the position by that
amount: the returned length never exceeds `remaining()`, and `remaining()`
afterwards equals `remaining()` before minus the length returned.  It
performs no fetch: the buffer contents, URL and handle are untouched. -/
theorem buffer_take_spec (k : Nat) (s : EngineState) :
    (buffer_take k s).1.length = min k (remaining s) ∧
    (buffer_take k s).1 = (s.buffer.drop s.pos).take (min k (remaining s)) ∧
    (buffer_take k s).1.length ≤ remaining s ∧
    remaining (buffer_take k s).2 = remaining s - (buffer_take k s).1.length ∧
    (buffer_take k s).2.buffer = s.buffer ∧
    (buffer_take k s).2.url = s.url ∧
    (buffer_take k s).2.handle = s.handle := by
  have hlen := buffer_take_len k s
  refine ⟨?_, ?_, ?_, ?_, rfl, rfl, rfl⟩
  · rw [hlen, remaining, Nat.min_comm]
  · rw [remaining, Nat.min_comm]
    rfl
  · rw [hlen, remaining]
    omega
  · rw [hlen]
    simp only [remaining, buffer_take]
    omega

/-- C8: a fetch whose response decodes to a zero-length byte sequence is
reported as a failure (return -1), and the empty block is never installed:
the key buffer afterwards is empty with the cursor at 0. -/
theorem fetch_empty_block_rejected (s : EngineState) (u h : Nat)
    (rest : List (Option (List Nat)))
    (hu : s.url = some u) (hh : s.handle = some h) :
    (template_engine_fetch_key (some [] :: rest) s).ret = -1 ∧
    (template_engine_fetch_key (some [] :: rest) s).state.buffer = [] ∧
    (template_engine_fetch_key (some [] :: rest) s).state.pos = 0 := by
  simp [template_engine_fetch_key, hu, hh]

/-- C8 witness: a concrete connected state receiving an empty decoded block. -/
theorem fetch_empty_block_rejected_witness :
    (template_engine_fetch_key [some []] ⟨some 1, some 2, [5], 1⟩).ret = -1 ∧
    (template_engine_fetch_key [some []] ⟨some 1, some 2, [5], 1⟩).state.buffer = [] ∧
    (template_engine_fetch_key [some []] ⟨some 1, some 2, [5], 1⟩).state.pos = 0 :=
  fetch_empty_block_rejected ⟨some 1, some 2, [5], 1⟩ 1 2 [] rfl rfl

/-- C2 counterexample: with a non-empty previous buffer `[3,4,5]` at
position 1, a refill attempt that decodes to an empty block does signal the
error, but the previous buffer state is NOT left unchanged: it is cleared. -/
theorem refill_not_all_or_nothing_cex :
    (template_engine_fetch_key [some []] ⟨some 1, some 2, [3, 4, 5], 1⟩).ret = -1 ∧
    ¬ (template_engine_fetch_key [some []] ⟨some 1, some 2, [3, 4, 5], 1⟩).state
        = ⟨some 1, some 2, [3, 4, 5], 1⟩ := by
  decide

/-- C2 amended: a refill attempt with a failed or empty new block signals
the error (-1), but is not all-or-nothing: the code frees the previous
buffer before issuing the fetch, so the previous contents and read position
are lost and the caller is left with an empty buffer and cursor 0 (URL and
handle unchanged). -/
theorem refill_failed_clears (s : EngineState) (u h : Nat)
    (r : Option (List Nat)) (rest : List (Option (List Nat)))
    (hu : s.url = some u) (hh : s.handle = some h)
    (hbad : goodResp r = false) :
    template_engine_fetch_key (r :: rest) s =
      { ret := -1, state := { s with buffer := [], pos := 0 },
        reqs := [Request.fetchReq u h], fetchesLeft := rest } := by
  cases r with
  | none => simp [template_engine_fetch_key, hu, hh]
  | some bs =>
    have hz : bs.length = 0 := by
      simp [goodResp, List.isEmpty_iff] at hbad
      simp [hbad]
    simp [template_engine_fetch_key, hu, hh, hz]

/-- C2 amended witness: concrete failed refill over the state of the
counterexample. -/
theorem refill_failed_clears_witness :
    template_engine_fetch_key [none] (⟨some 1, some 2, [3, 4, 5], 1⟩ : EngineState) =
      { ret := -1, state := ⟨some 1, some 2, [], 0⟩,
        reqs := [Request.fetchReq 1 2], fetchesLeft := [] } :=
  refill_failed_clears ⟨some 1, some 2, [3, 4, 5], 1⟩ 1 2 none [] rfl rfl rfl

/-- C3 counterexample: two runs over an open session (handle 5, URL 1) that
differ only in a `QKD_SERVICE_URL` control command issued after open do NOT
send the same fetch request: the second run fetches from the new URL 2. -/
theorem set_url_after_open_changes_fetch_cex :
    ¬ (template_engine_fetch_key [some [1]]
          (template_engine_ctrl 1 (some 2) ⟨some 1, some 5, [], 0⟩).2).reqs
        = (template_engine_fetch_key [some [1]] ⟨some 1, some 5, [], 0⟩).reqs := by
  decide

/-- C3 amended: the session does not capture the endpoint at open time: a
fetch always reads the currently configured global URL, so a URL change via
the control command after the session is open redirects every subsequent
fetch request of that same session handle. -/
theorem fetch_uses_current_url (s : EngineState) (u h u2 : Nat)
    (f : List (Option (List Nat)))
    (hu : s.url = some u) (hh : s.handle = some h) :
    (template_engine_fetch_key f s).reqs = [Request.fetchReq u h] ∧
    (template_engine_fetch_key f (template_engine_ctrl 1 (some u2) s).2).reqs
      = [Request.fetchReq u2 h] := by
  refine ⟨fetch_key_reqs f s u h hu hh, ?_⟩
  exact fetch_key_reqs f (template_engine_ctrl 1 (some u2) s).2 u2 h rfl (by simpa [template_engine_ctrl] using hh)

/-- C3 amended witness: open session at URL 1, reconfigured to URL 2. -/
theorem fetch_uses_current_url_witness :
    (template_engine_fetch_key [] (⟨some 1, some 5, [], 0⟩ : EngineState)).reqs
      = [Request.fetchReq 1 5] ∧
    (template_engine_fetch_key []
        (template_engine_ctrl 1 (some 2) ⟨some 1, some 5, [], 0⟩).2).reqs
      = [Request.fetchReq 2 5] :=
  fetch_uses_current_url ⟨some 1, some 5, [], 0⟩ 1 5 2 [] rfl rfl

/-- C5: when the open round-trip succeeded (yielding a handle) but the
confirmation round-trip fails, `template_engine_connect` issues a
best-effort close with the just-received handle, discards the handle
(sets it to `none`), and reports the original failure (-1) to the caller;
the outcome of the cleanup close (`closeOk`, universally quantified here)
never changes any part of the result. -/
theorem connect_confirm_fail_cleanup (env : ConnectEnv) (s : EngineState)
    (u h : Nat) (hu : s.url = some u) (hok : env.openOk = true)
    (hh : env.openHandle = some h) (hcf : env.connectOk = false) :
    template_engine_connect env s =
      { ret := -1, state := { s with handle := none },
        reqs := [Request.openReq u, Request.connectReq u h, Request.closeReq u h] } := by
  rcases env with ⟨ok, oh, cok, clk⟩
  simp only at hok hh hcf
  subst hok
  subst hh
  subst hcf
  simp [template_engine_connect, hu]

/-- C5 witness: concrete confirmation failure after open returned handle 9. -/
theorem connect_confirm_fail_cleanup_witness :
    template_engine_connect ⟨true, some 9, false, false⟩ (⟨some 4, none, [], 0⟩ : EngineState) =
      { ret := -1, state := ⟨some 4, none, [], 0⟩,
        reqs := [Request.openReq 4, Request.connectReq 4 9, Request.closeReq 4 9] } :=
  connect_confirm_fail_cleanup ⟨true, some 9, false, false⟩ ⟨some 4, none, [], 0⟩ 4 9 rfl rfl rfl rfl

/-- C6: if no session is open and the connect protocol (open or its
confirmation) fails inside `template_rand_bytes`, the call returns failure
(0) with zero bytes written, no session handle is retained, and the
configured URL is unchanged (so status still reports URL-configured). -/
theorem open_fail_provide_fails (env : RandEnv) (s : EngineState) (num : Nat)
    (hh : s.handle = none)
    (hc : (template_engine_connect env.conn s).ret ≠ 0) :
    (template_rand_bytes env s num).ret = false ∧
    (template_rand_bytes env s num).written = [] ∧
    (template_rand_bytes env s num).state.handle = none ∧
    (template_rand_bytes env s num).state.url = s.url := by
  have h1 := connect_fail_handle env.conn s hh hc
  have h2 := connect_preserves_url env.conn s
  unfold template_rand_bytes
  simp [hh, hc, h1, h2]

/-- C6 witness: connection refused (no open response) with `provide(16)`. -/
theorem open_fail_provide_fails_witness :
    (template_rand_bytes ⟨⟨false, none, true, true⟩, []⟩ ⟨some 1, none, [], 0⟩ 16).ret = false ∧
    (template_rand_bytes ⟨⟨false, none, true, true⟩, []⟩ ⟨some 1, none, [], 0⟩ 16).written = [] ∧
    (template_rand_bytes ⟨⟨false, none, true, true⟩, []⟩ ⟨some 1, none, [], 0⟩ 16).state.handle = none ∧
    (template_rand_bytes ⟨⟨false, none, true, true⟩, []⟩ ⟨some 1, none, [], 0⟩ 16).state.url = some 1 :=
  open_fail_provide_fails ⟨⟨false, none, true, true⟩, []⟩ ⟨some 1, none, [], 0⟩ 16 rfl (by decide)

/-- C1 counterexample: with an open session whose buffer holds one unread
byte and a service that fails the next fetch, `rand_bytes(buf, 2)` returns
success (1) although only 1 of the 2 requested bytes was written: success
does not guarantee a fully populated buffer. -/
theorem rand_bytes_success_underfull_cex :
    (template_rand_bytes ⟨⟨true, some 5, true, true⟩, [none]⟩
        ⟨some 1, some 5, [9], 0⟩ 2).ret = true ∧
    (template_rand_bytes ⟨⟨true, some 5, true, true⟩, [none]⟩
        ⟨some 1, some 5, [9], 0⟩ 2).written.length < 2 := by
  decide

/-- C1 amended: a success return of `template_rand_bytes` guarantees at most
`num` bytes were written, and at least one byte when `num > 0`; it does not
guarantee exactly `num` bytes, because a fetch failure after some bytes were
already provided still returns success (`return (bytes_provided > 0)`). -/
theorem rand_bytes_success_bounded (env : RandEnv) (s : EngineState) (num : Nat)
    (hs : (template_rand_bytes env s num).ret = true) :
    (template_rand_bytes env s num).written.length ≤ num ∧
    (0 < num → 0 < (template_rand_bytes env s num).written.length) := by
  refine ⟨rand_bytes_written_le env s num, fun hn => ?_⟩
  cases hsh : s.handle with
  | none =>
    rw [rand_bytes_none_eq env s num hsh] at hs ⊢
    by_cases hc : (template_engine_connect env.conn s).ret = 0
    · rw [if_pos hc] at hs ⊢
      exact (provideLoop_written_bounds _ _ _ _ _ _).2.2 hs hn
    · rw [if_neg hc] at hs
      simp at hs
  | some h0 =>
    rw [rand_bytes_some_eq env s num h0 hsh] at hs ⊢
    exact (provideLoop_written_bounds _ _ _ _ _ _).2.2 hs hn

/-- C1 amended witness: a fully served request (2 bytes from a 2-byte
buffer) satisfies the success hypothesis. -/
theorem rand_bytes_success_bounded_witness :
    (template_rand_bytes ⟨⟨true, some 5, true, true⟩, []⟩
        ⟨some 1, some 5, [1, 2], 0⟩ 2).written.length ≤ 2 ∧
    (0 < 2 → 0 < (template_rand_bytes ⟨⟨true, some 5, true, true⟩, []⟩
        ⟨some 1, some 5, [1, 2], 0⟩ 2).written.length) :=
  rand_bytes_success_bounded ⟨⟨true, some 5, true, true⟩, []⟩
    ⟨some 1, some 5, [1, 2], 0⟩ 2 (by decide)

/-- C9: the provide loop (a total function here, so it terminates on every
input) never writes more bytes than requested, and a failed fetch ends the
request immediately with no internal retry: everything in the response
queue after a failed response is still unconsumed when the call returns, so
the loop cannot spin against a deterministically failing gateway. -/
theorem provide_no_overrun_no_retry (env : RandEnv) (s : EngineState)
    (num : Nat) (pre rest : List (Option (List Nat))) (r : Option (List Nat))
    (hsplit : env.fetches = pre ++ r :: rest) (hbad : goodResp r = false) :
    (template_rand_bytes env s num).written.length ≤ num ∧
    rest.length ≤ (template_rand_bytes env s num).fetchesLeft.length := by
  refine ⟨rand_bytes_written_le env s num, ?_⟩
  unfold template_rand_bytes
  cases hsh : s.handle with
  | none =>
    by_cases hc : (template_engine_connect env.conn s).ret = 0
    · simp only [hc, if_true]
      exact provideLoop_stop_bad _ _ _ _ _ _ pre rest r hsplit hbad
    · simp only [hc, if_false]
      simp [hsplit]
      omega
  | some h0 =>
    exact provideLoop_stop_bad _ _ _ _ _ _ pre rest r hsplit hbad

/-- C9 witness: open session, queue holding one failed response. -/
theorem provide_no_overrun_no_retry_witness :
    (template_rand_bytes ⟨⟨true, some 5, true, true⟩, [none]⟩
        ⟨some 1, some 5, [], 0⟩ 4).written.length ≤ 4 ∧
    ([] : List (Option (List Nat))).length ≤
      (template_rand_bytes ⟨⟨true, some 5, true, true⟩, [none]⟩
        ⟨some 1, some 5, [], 0⟩ 4).fetchesLeft.length :=
  provide_no_overrun_no_retry ⟨⟨true, some 5, true, true⟩, [none]⟩
    ⟨some 1, some 5, [], 0⟩ 4 [] [] none rfl rfl

/-- C10: `rand_bytes` with `num = 0` and no open session still runs the full
connect protocol before looking at the requested count: it issues exactly
the connect-protocol requests, writes nothing, takes over the connect
result state, and succeeds iff the connect protocol succeeded. -/
theorem rand_bytes_zero_runs_connect (env : RandEnv) (s : EngineState)
    (hh : s.handle = none) :
    (template_rand_bytes env s 0).written = [] ∧
    (template_rand_bytes env s 0).reqs = (template_engine_connect env.conn s).reqs ∧
    (template_rand_bytes env s 0).state = (template_engine_connect env.conn s).state ∧
    ((template_rand_bytes env s 0).ret = true ↔
      (template_engine_connect env.conn s).ret = 0) := by
  unfold template_rand_bytes
  rw [hh]
  by_cases hc : (template_engine_connect env.conn s).ret = 0
  · have hz := provideLoop_needed_zero (env.fetches.length + 0 + 1) env.fetches
      (template_engine_connect env.conn s).state []
      (template_engine_connect env.conn s).reqs (by omega)
    simp [hc, hz]
  · simp [hc]

/-- C10 witness: a failing connect environment (no open response). -/
theorem rand_bytes_zero_runs_connect_witness :
    (template_rand_bytes ⟨⟨false, none, true, true⟩, []⟩ ⟨some 1, none, [], 0⟩ 0).written = [] ∧
    (template_rand_bytes ⟨⟨false, none, true, true⟩, []⟩ ⟨some 1, none, [], 0⟩ 0).reqs
      = (template_engine_connect ⟨false, none, true, true⟩ ⟨some 1, none, [], 0⟩).reqs ∧
    (template_rand_bytes ⟨⟨false, none, true, true⟩, []⟩ ⟨some 1, none, [], 0⟩ 0).state
      = (template_engine_connect ⟨false, none, true, true⟩ ⟨some 1, none, [], 0⟩).state ∧
    ((template_rand_bytes ⟨⟨false, none, true, true⟩, []⟩ ⟨some 1, none, [], 0⟩ 0).ret = true ↔
      (template_engine_connect ⟨false, none, true, true⟩ ⟨some 1, none, [], 0⟩).ret = 0) :=
  rand_bytes_zero_runs_connect ⟨⟨false, none, true, true⟩, []⟩ ⟨some 1, none, [], 0⟩ rfl

theorem provideLoop_concat (f : List (Option (List Nat))) (t : EngineState)
    (a b u h0 : Nat) (hu : t.url = some u) (hh : t.handle = some h0)
    (hgood : ∀ r ∈ f, goodResp r = true)
    (fuelA fuelB fuelJ : Nat) (hfa : f.length + a < fuelA)
    (hfb : (provideLoop fuelA f t a [] []).fetchesLeft.length + b < fuelB)
    (hfj : f.length + (a + b) < fuelJ) :
    (provideLoop fuelA f t a [] []).written
      ++ (provideLoop fuelB (provideLoop fuelA f t a [] []).fetchesLeft
            (provideLoop fuelA f t a [] []).state b [] []).written
      = (provideLoop fuelJ f t (a + b) [] []).written := by
  have h1 := provideLoop_stream fuelA f t a u h0 hu hh hgood hfa
  have hp := provideLoop_preserves fuelA f t a [] []
  have h2 := provideLoop_stream fuelB (provideLoop fuelA f t a [] []).fetchesLeft
    (provideLoop fuelA f t a [] []).state b u h0 (hp.1.trans hu) (hp.2.trans hh)
    h1.2.2 hfb
  have hj := provideLoop_stream fuelJ f t (a + b) u h0 hu hh hgood hfj
  rw [h1.1, h2.1, h1.2.1, hj.1]
  exact (List.take_add _ a b).symm

/-- C4 counterexample: open session (URL 1, handle 5), empty buffer, fetch
responses [failure, block [7]].  Requesting 1 byte then 1 byte writes the
byte 7 in the second call, but requesting 2 bytes in one call writes
nothing (the failed fetch ends the call): the concatenations differ, so the
claim fails for sequences containing a failed fetch. -/
theorem provide_concat_cex :
    ¬ ((template_rand_bytes ⟨⟨true, some 5, true, true⟩, [none, some [7]]⟩
          ⟨some 1, some 5, [], 0⟩ 1).written
        ++ (template_rand_bytes
              ⟨⟨true, some 5, true, true⟩,
               (template_rand_bytes ⟨⟨true, some 5, true, true⟩, [none, some [7]]⟩
                  ⟨some 1, some 5, [], 0⟩ 1).fetchesLeft⟩
              (template_rand_bytes ⟨⟨true, some 5, true, true⟩, [none, some [7]]⟩
                  ⟨some 1, some 5, [], 0⟩ 1).state 1).written
        = (template_rand_bytes ⟨⟨true, some 5, true, true⟩, [none, some [7]]⟩
            ⟨some 1, some 5, [], 0⟩ 2).written) := by
  decide

/-- C4 amended: when a service URL is configured and every queued fetch
response is a successful non-empty block (no failed fetch anywhere in the
response sequence), requesting `a` bytes and then `b` bytes — the second
call running on the state and unconsumed responses left by the first —
writes the same concatenated byte sequence as requesting `a + b` bytes in
one call, including buffer carry-over across calls.  The restriction to
failure-free response sequences is forced by the counterexample. -/
theorem provide_concat_of_good_fetches (env : RandEnv) (s : EngineState)
    (a b u : Nat) (hu : s.url = some u)
    (hgood : ∀ r ∈ env.fetches, goodResp r = true) :
    (template_rand_bytes env s a).written
      ++ (template_rand_bytes ⟨env.conn, (template_rand_bytes env s a).fetchesLeft⟩
            (template_rand_bytes env s a).state b).written
      = (template_rand_bytes env s (a + b)).written := by
  cases hsh : s.handle with
  | some h0 =>
    rw [rand_bytes_some_eq env s a h0 hsh]
    have hp := provideLoop_preserves (env.fetches.length + a + 1) env.fetches s a [] []
    rw [rand_bytes_some_eq _ _ b h0 (hp.2.trans hsh), rand_bytes_some_eq env s (a + b) h0 hsh]
    exact provideLoop_concat env.fetches s a b u h0 hu hsh hgood _ _ _
      (by omega) (by dsimp only; omega) (by omega)
  | none =>
    by_cases hc : (template_engine_connect env.conn s).ret = 0
    · obtain ⟨u1, hh1, hu1, hstate⟩ := connect_success_state env.conn s hc
      have hsu : (template_engine_connect env.conn s).state.url = some u := by
        rw [hstate]
        exact hu
      have hsh2 : (template_engine_connect env.conn s).state.handle = some hh1 := by
        rw [hstate]
      rw [rand_bytes_none_eq env s a hsh, if_pos hc,
        rand_bytes_none_eq env s (a + b) hsh, if_pos hc]
      have hA := provideLoop_acc (env.fetches.length + a + 1) env.fetches
        (template_engine_connect env.conn s).state a []
        (template_engine_connect env.conn s).reqs
      have hJ := provideLoop_acc (env.fetches.length + (a + b) + 1) env.fetches
        (template_engine_connect env.conn s).state (a + b) []
        (template_engine_connect env.conn s).reqs
      have hploop := provideLoop_preserves (env.fetches.length + a + 1) env.fetches
        (template_engine_connect env.conn s).state a []
        (template_engine_connect env.conn s).reqs
      rw [rand_bytes_some_eq _ _ b hh1 (hploop.2.trans hsh2)]
      rw [hA.1, hA.2.1, hA.2.2, hJ.1, List.nil_append, List.nil_append]
      exact provideLoop_concat env.fetches (template_engine_connect env.conn s).state
        a b u hh1 hsu hsh2 hgood _ _ _ (by omega) (by dsimp only; omega) (by omega)
    · have h1 := connect_fail_handle env.conn s hsh hc
      have h2 := connect_preserves_url env.conn s
      have hc2 : ¬ (template_engine_connect env.conn
          (template_engine_connect env.conn s).state).ret = 0 := by
        rw [connect_ret_congr env.conn s (template_engine_connect env.conn s).state
          h2 (h1.trans hsh.symm)]
        exact hc
      rw [rand_bytes_none_eq env s a hsh, if_neg hc,
        rand_bytes_none_eq env s (a + b) hsh, if_neg hc]
      dsimp only
      rw [rand_bytes_none_eq _ _ b h1, if_neg hc2]
      simp

/-- C4 amended witness: one unread buffer byte plus a 2-byte block, split as
2 + 1 bytes versus 3 bytes in one call. -/
theorem provide_concat_of_good_fetches_witness :
    (template_rand_bytes ⟨⟨true, some 5, true, true⟩, [some [7, 8]]⟩
        ⟨some 1, some 5, [9], 0⟩ 2).written
      ++ (template_rand_bytes
            ⟨⟨true, some 5, true, true⟩,
             (template_rand_bytes ⟨⟨true, some 5, true, true⟩, [some [7, 8]]⟩
                ⟨some 1, some 5, [9], 0⟩ 2).fetchesLeft⟩
            (template_rand_bytes ⟨⟨true, some 5, true, true⟩, [some [7, 8]]⟩
                ⟨some 1, some 5, [9], 0⟩ 2).state 1).written
      = (template_rand_bytes ⟨⟨true, some 5, true, true⟩, [some [7, 8]]⟩
          ⟨some 1, some 5, [9], 0⟩ (2 + 1)).written :=
  provide_concat_of_good_fetches ⟨⟨true, some 5, true, true⟩, [some [7, 8]]⟩
    ⟨some 1, some 5, [9], 0⟩ 2 1 1 rfl (by decide)
